import Mathlib

/-!
# Longboard light-painting speedometer: model of `final project/main.c`

The firmware is a set of run-to-completion interrupt handlers plus a main loop, all acting on
four global `int` counters and a handful of MSP430 peripheral registers.  Each handler is
embedded as a function on an explicit machine state.

Conventions of the embedding:

* `int` is the 16-bit two's-complement integer of the MSP430.  A counter is an `Int` and every
  arithmetic result stored into one goes through `wrap16`.
* A peripheral register is a `Nat`; `r |= m` is `r ||| m`, `r &= ~m` is `bic8 r m`
  (8-bit registers) or `bic16 r m` (16-bit registers).
* Calls into `LED_lib.h` (`ini_led`, `zero` .. `nine`, `end_led`) are recorded, in order, in
  the `leds` trace of the state.
* Division by zero has no defined result in C, so `set_timer` is fallible.
-/

namespace Speedometer

/-! ## Constants of `msp430.h` used by the program -/

/-- Bit 0. -/
def BIT0 : Nat := 0x0001
/-- Bit 2. -/
def BIT2 : Nat := 0x0004
/-- Bit 4. -/
def BIT4 : Nat := 0x0010
/-- Watchdog interrupt enable bit of `IE1`. -/
def WDTIE : Nat := 0x01
/-- Capture/compare interrupt enable bit of `TA1CCTL0`. -/
def CCIE : Nat := 0x0010
/-- CPU-off bit of the status register. -/
def CPUOFF : Nat := 0x0010
/-- General interrupt enable bit of the status register. -/
def GIE : Nat := 0x0008
/-- Watchdog password. -/
def WDTPW : Nat := 0x5A00
/-- Watchdog hold bit. -/
def WDTHOLD : Nat := 0x0080
/-- Watchdog interval-timer mode, 32 ms at 1 MHz: `WDTPW + WDTTMSEL + WDTCNTCL`. -/
def WDT_MDLY_32 : Nat := 0x5A00 + 0x0010 + 0x0008
/-- Timer clock source select: SMCLK. -/
def TASSEL_2 : Nat := 0x0200
/-- Timer mode control: up mode. -/
def MC_1 : Nat := 0x0010
/-- USCI software reset bit. -/
def UCSWRST : Nat := 0x01
/-- USCI clock phase select. -/
def UCCKPH : Nat := 0x80
/-- USCI mode 0 (3-pin SPI). -/
def UCMODE_0 : Nat := 0x00
/-- USCI MSB-first select. -/
def UCMSB : Nat := 0x20
/-- USCI master select. -/
def UCMST : Nat := 0x08
/-- USCI synchronous mode. -/
def UCSYNC : Nat := 0x01
/-- USCI clock source select: SMCLK. -/
def UCSSEL_2 : Nat := 0x80

/-! ## Constants of `main.c` -/

/-- Line 25: `#define HALL (BIT0)`, the Hall sensor input pin P1.0. -/
def HALL : Nat := BIT0
/-- Line 26: `#define LED (BIT2 + BIT4)`. -/
def LED : Nat := BIT2 + BIT4
/-- Line 34: `#define DELAY (65000)`. -/
def DELAY : Int := 65000

/-! ## Machine arithmetic -/

/-- Reduction of an integer to the 16-bit two's-complement range `[-32768, 32767]`. -/
def wrap16 (x : Int) : Int := (x + 32768) % 65536 - 32768

/-- The C statement `r &= ~m` on an 8-bit register. -/
def bic8 (r m : Nat) : Nat := r &&& (0xFF ^^^ m)

/-- The C statement `r &= ~m` on a 16-bit register. -/
def bic16 (r m : Nat) : Nat := r &&& (0xFFFF ^^^ m)

/-! ## State -/

/-- One call into the LED library.  The call `glyph d c` stands for the call of the `d`-th of
the digit functions `zero`, `one`, ..., `nine` with argument `c`. -/
inductive LedCall where
  | ini_led : LedCall
  | glyph (digit : Nat) (col : Int) : LedCall
  | end_led : LedCall
deriving DecidableEq

/-- The globals of `main.c`, the registers the program writes, and the record of calls made
to the outside (`leds`: calls into the LED library; `wakes`: how many times
`__bic_SR_register_on_exit(CPUOFF)` has been executed). -/
structure State where
  wheel_turn : Int
  wdt_counter : Int
  column : Int
  speed : Int
  SR : Nat
  WDTCTL : Nat
  IE1 : Nat
  P1DIR : Nat
  P1REN : Nat
  P1OUT : Nat
  P1IES : Nat
  P1IE : Nat
  P1IFG : Nat
  P1SEL : Nat
  P1SEL2 : Nat
  UCA0CTL0 : Nat
  UCA0CTL1 : Nat
  TA1CCTL0 : Nat
  TA1CCR0 : Nat
  TA1CTL : Nat
  leds : List LedCall
  wakes : Nat
deriving DecidableEq

/-- The machine at power-up: the globals hold their initialisers (lines 29-31 and 42), the
registers their values after a power-up clear (the port registers `P1OUT` and `P1IES`, which
the hardware leaves unspecified, are taken as 0), and nothing has been drawn. -/
def reset : State where
  wheel_turn := 0
  wdt_counter := 0
  column := 0
  speed := 0
  SR := 0
  WDTCTL := 0x6900
  IE1 := 0
  P1DIR := 0
  P1REN := 0
  P1OUT := 0
  P1IES := 0
  P1IE := 0
  P1IFG := 0
  P1SEL := 0
  P1SEL2 := 0
  UCA0CTL0 := 0
  UCA0CTL1 := UCSWRST
  TA1CCTL0 := 0
  TA1CCR0 := 0
  TA1CTL := 0
  leds := []
  wakes := 0

/-! ## The functions of `main.c` -/

/-- Lines 186-193: `set_led`. -/
def set_led (s : State) : State :=
  let s := { s with P1SEL := LED }
  let s := { s with P1SEL2 := LED }
  let s := { s with UCA0CTL1 := UCSWRST }
  let s := { s with UCA0CTL0 := s.UCA0CTL0 ||| (UCCKPH + UCMODE_0 + UCMSB + UCMST + UCSYNC) }
  let s := { s with UCA0CTL1 := s.UCA0CTL1 ||| UCSSEL_2 }
  { s with UCA0CTL1 := bic8 s.UCA0CTL1 UCSWRST }

/-- Lines 173-180: `set_Hall`. -/
def set_Hall (s : State) : State :=
  let s := { s with P1DIR := bic8 s.P1DIR HALL }
  let s := { s with P1REN := s.P1REN ||| HALL }
  let s := { s with P1OUT := s.P1OUT ||| HALL }
  let s := { s with P1IES := s.P1IES ||| HALL }
  let s := { s with P1IE := s.P1IE ||| HALL }
  { s with P1IFG := s.P1IFG &&& 0 }

/-- Lines 52-60 of `main`, up to the `while` loop (the clock calibration of lines 53-54 writes
only `BCSCTL1` and `DCOCTL`, which are not part of the state). -/
def main_init (s : State) : State :=
  let s := { s with WDTCTL := WDTPW + WDTHOLD }
  let s := set_led s
  let s := set_Hall s
  let s := { s with WDTCTL := WDT_MDLY_32 }
  { s with IE1 := s.IE1 ||| WDTIE }

/-- The state after start-up, at the end of line 60. -/
def startup : State := main_init reset

/-- Line 63: `__bic_SR_register(CPUOFF + GIE)`, the intrinsic that clears the given bits of
the status register. -/
def main_wait (s : State) : State :=
  { s with SR := bic16 s.SR (CPUOFF + GIE) }

/-- Lines 64-67 of `main`: disable the port and watchdog interrupts, compute `speed`, reset
`wheel_turn`. -/
def main_compute (s : State) : State :=
  let s := { s with P1IE := bic8 s.P1IE HALL }
  let s := { s with IE1 := bic8 s.IE1 WDTIE }
  let s := { s with speed := s.wheel_turn >>> (3 : Nat) }
  { s with wheel_turn := 0 }

/-- Lines 77-81: `set_timer`.  `DELAY` is a `long` constant, the quotient is computed in
`long`, cast to `int` and stored into the 16-bit register `TA1CCR0`.  A zero divisor has no
result. -/
def set_timer (speed_set : Int) (s : State) : Option State :=
  let s := { s with TA1CCTL0 := CCIE }
  if speed_set = 0 then none
  else
    let s := { s with TA1CCR0 := (wrap16 (Int.tdiv DELAY speed_set) % 65536).toNat }
    some { s with TA1CTL := TASSEL_2 + MC_1 }

/-- Lines 64-68 of `main`: the body of the loop after the wait, `main_compute` followed by
`set_timer(speed)`. -/
def main_body (s : State) : Option State :=
  let s := main_compute s
  set_timer s.speed s

/-- Lines 91-94: `HALL_interrupt`. -/
def HALL_interrupt (s : State) : State :=
  let s := { s with wheel_turn := wrap16 (s.wheel_turn + 1) }
  { s with P1IFG := bic8 s.P1IFG HALL }

/-- Lines 103-110: `watchdog_timer`. -/
def watchdog_timer (s : State) : State :=
  let s := { s with wdt_counter := wrap16 (s.wdt_counter + 1) }
  if s.wdt_counter = 30 then
    let s := { s with wdt_counter := 0 }
    { s with SR := bic16 s.SR CPUOFF, wakes := s.wakes + 1 }
  else s

/-- Lines 124-155: the `switch` of `timer_A1`; there is no `default` case. -/
def draw_digit (speed_timer : Int) (column : Int) (leds : List LedCall) : List LedCall :=
  if speed_timer = 0 then leds ++ [LedCall.glyph 0 column]
  else if speed_timer = 1 then leds ++ [LedCall.glyph 1 column]
  else if speed_timer = 2 then leds ++ [LedCall.glyph 2 column]
  else if speed_timer = 3 then leds ++ [LedCall.glyph 3 column]
  else if speed_timer = 4 then leds ++ [LedCall.glyph 4 column]
  else if speed_timer = 5 then leds ++ [LedCall.glyph 5 column]
  else if speed_timer = 6 then leds ++ [LedCall.glyph 6 column]
  else if speed_timer = 7 then leds ++ [LedCall.glyph 7 column]
  else if speed_timer = 8 then leds ++ [LedCall.glyph 8 column]
  else if speed_timer = 9 then leds ++ [LedCall.glyph 9 column]
  else leds

/-- Lines 119-166: `timer_A1`. -/
def timer_A1 (s : State) : State :=
  let speed_timer := s.speed
  if s.column ≤ 6 then
    let s := { s with leds := s.leds ++ [LedCall.ini_led] }
    let s := { s with leds := draw_digit speed_timer s.column s.leds }
    let s := { s with leds := s.leds ++ [LedCall.end_led] }
    { s with column := wrap16 (s.column + 1) }
  else
    let s := { s with column := 0 }
    let s := { s with TA1CCTL0 := bic16 s.TA1CCTL0 CCIE }
    let s := { s with P1IE := s.P1IE ||| HALL }
    { s with IE1 := s.IE1 ||| WDTIE }

/-! ## Observations on a state -/

/-- The sensor interrupt is enabled: the `HALL` bit of `P1IE` is set. -/
def hall_enabled (s : State) : Bool := s.P1IE &&& HALL != 0

/-- The watchdog interrupt is enabled: the `WDTIE` bit of `IE1` is set. -/
def wdt_enabled (s : State) : Bool := s.IE1 &&& WDTIE != 0

/-- The render timer interrupt is enabled: the `CCIE` bit of `TA1CCTL0` is set. -/
def render_enabled (s : State) : Bool := s.TA1CCTL0 &&& CCIE != 0

/-- The CPU is switched off (low-power mode): the `CPUOFF` bit of the status register is set.
While it is, the main loop does not advance; while it is clear, the main loop, once past
line 63, executes lines 64-68. -/
def cpu_off (s : State) : Bool := s.SR &&& CPUOFF != 0

/-- The state in which the main loop leaves the machine when it arms the render timer after
a window of 24 sensor edges from start-up (`startup` itself if the body had no result). -/
def armed : State := (main_body (HALL_interrupt^[24] startup)).getD startup

/-- The two consistent settings of the interrupt enables: MEASURE (sensor and watchdog on,
render timer off) and RENDER (render timer on, sensor and watchdog off). -/
def phase_ok (s : State) : Prop :=
  (hall_enabled s = !render_enabled s) ∧ (wdt_enabled s = hall_enabled s)

/-- The calls of a render pass that has drawn the columns `0, ..., n-1` of digit `d`: for each
column in turn `ini_led`, the digit function, `end_led`. -/
def glyph_columns (d : Nat) : Nat → List LedCall
  | 0 => []
  | n + 1 => glyph_columns d n ++ [LedCall.ini_led, LedCall.glyph d (n : Int), LedCall.end_led]

/-- The calls of the first `n` drawing firings of a render pass for an arbitrary value of
`speed`: for each column `ini_led`, whatever the `switch` calls, `end_led`. -/
def pass_calls (sp : Int) : Nat → List LedCall
  | 0 => []
  | n + 1 => pass_calls sp n ++ draw_digit sp (n : Int) [LedCall.ini_led] ++ [LedCall.end_led]

/-- The interrupts that can occur during a MEASURE window: a sensor edge, which runs
`HALL_interrupt`, or the expiry of the watchdog interval, which runs `watchdog_timer`. -/
inductive MeasureEvent where
  | edge : MeasureEvent
  | tick : MeasureEvent
deriving DecidableEq

/-- The handler run by an event of the MEASURE window. -/
def measure_step (e : MeasureEvent) (s : State) : State :=
  match e with
  | MeasureEvent.edge => HALL_interrupt s
  | MeasureEvent.tick => watchdog_timer s

/-- A MEASURE window: the handlers of its events run one after the other. -/
def measure_window (w : List MeasureEvent) (s : State) : State :=
  w.foldl (fun s e => measure_step e s) s

/-- One MEASURE->RENDER cycle: the events of the window, then the body of the main loop
(lines 64-68), then the eight firings of `timer_A1` of a render pass (seven columns and the
hand-off).  The wait of line 63 is left out of the cycle: it writes the status register only,
which no handler reads. -/
def cycle (w : List MeasureEvent) (s : State) : Option State :=
  (main_body (measure_window w s)).map (timer_A1^[8])

/-- Consecutive cycles, one per window. -/
def cycles : List (List MeasureEvent) → State → Option State
  | [], s => some s
  | w :: ws, s => (cycle w s).bind (cycles ws)

/-- The calls of `n` identical render passes. -/
def repeat_calls (l : List LedCall) : Nat → List LedCall
  | 0 => []
  | n + 1 => l ++ repeat_calls l n

/-- The values every cycle starts from. -/
def cycle_start (s : State) : Prop :=
  s.wheel_turn = 0 ∧ s.wdt_counter = 0 ∧ s.column = 0

/-! ## Dispatch of the handlers and of the main loop

The hardware rules under which the steps are taken: a handler runs only while the `GIE` bit of
the status register and the handler's own interrupt-enable bit are set; the main loop advances
only while the CPU is not switched off. -/

/-- The states reachable from `startup` by the handlers and the steps of the main loop, each
taken as one atomic step and with no assumption on which of them the hardware would let
run. -/
inductive Reachable : State → Prop
  | start : Reachable startup
  | hall {s : State} : Reachable s → Reachable (HALL_interrupt s)
  | wdt {s : State} : Reachable s → Reachable (watchdog_timer s)
  | timer {s : State} : Reachable s → Reachable (timer_A1 s)
  | wait {s : State} : Reachable s → Reachable (main_wait s)
  | body {s t : State} : Reachable s → main_body s = some t → Reachable t

/-! ## Machine arithmetic: lemmas -/

theorem wrap16_of_range {x : Int} (h1 : -32768 ≤ x) (h2 : x ≤ 32767) : wrap16 x = x := by
  unfold wrap16; omega

theorem wrap16_succ_wrap16 (x : Int) : wrap16 (wrap16 x + 1) = wrap16 (x + 1) := by
  unfold wrap16; omega

theorem or_and_self (r m : Nat) : (r ||| m) &&& m = m := by
  apply Nat.eq_of_testBit_eq
  intro i
  rw [Nat.testBit_and, Nat.testBit_or]
  cases r.testBit i <;> cases m.testBit i <;> rfl

theorem bic8_and_HALL (r : Nat) : bic8 r HALL &&& HALL = 0 := by
  have h : (0xFF ^^^ HALL) &&& HALL = 0 := by decide
  unfold bic8
  rw [Nat.and_assoc, h, Nat.and_zero]

theorem bic8_and_WDTIE (r : Nat) : bic8 r WDTIE &&& WDTIE = 0 := by
  have h : (0xFF ^^^ WDTIE) &&& WDTIE = 0 := by decide
  unfold bic8
  rw [Nat.and_assoc, h, Nat.and_zero]

theorem bic16_and_CCIE (r : Nat) : bic16 r CCIE &&& CCIE = 0 := by
  have h : (0xFFFF ^^^ CCIE) &&& CCIE = 0 := by decide
  unfold bic16
  rw [Nat.and_assoc, h, Nat.and_zero]

/-! ## The sensor handler -/

theorem HALL_interrupt_wheel_turn (s : State) :
    (HALL_interrupt s).wheel_turn = wrap16 (s.wheel_turn + 1) := rfl

theorem HALL_iterate_wheel_turn (s : State) (h0 : s.wheel_turn = 0) (k : Nat) :
    (HALL_interrupt^[k] s).wheel_turn = wrap16 k := by
  induction k with
  | zero => simp [h0, wrap16]
  | succ n ih =>
    rw [Function.iterate_succ_apply', HALL_interrupt_wheel_turn, ih, wrap16_succ_wrap16]
    push_cast
    rfl

theorem main_body_of_speed_ne_zero (s : State) (h : s.wheel_turn >>> (3 : Nat) ≠ 0) :
    ∃ t, main_body s = some t ∧ t.speed = s.wheel_turn >>> (3 : Nat) ∧ t.wheel_turn = 0 := by
  simp [main_body, main_compute, set_timer, h]

/-- C1 (as amended): starting from a state with `wheel_turn = 0`, after `k` executions of
`HALL_interrupt` with `k ≤ 32767`, lines 64-67 of `main` leave `speed = k >> 3` and
`wheel_turn = 0`; and when moreover `8 ≤ k`, the whole body of the loop (lines 64-68,
including `set_timer`) completes with `speed = k >> 3` and `wheel_turn = 0`. -/
theorem C1_speed_after_k_edges (s : State) (k : Nat) (h0 : s.wheel_turn = 0)
    (hk : k ≤ 32767) :
    (main_compute (HALL_interrupt^[k] s)).speed = ((k >>> 3 : Nat) : Int) ∧
    (main_compute (HALL_interrupt^[k] s)).wheel_turn = 0 ∧
    (8 ≤ k → ∃ t, main_body (HALL_interrupt^[k] s) = some t ∧
      t.speed = ((k >>> 3 : Nat) : Int) ∧ t.wheel_turn = 0) := by
  have hw : (HALL_interrupt^[k] s).wheel_turn = (k : Int) := by
    rw [HALL_iterate_wheel_turn s h0 k]
    exact wrap16_of_range (by omega) (by omega)
  have hs : (HALL_interrupt^[k] s).wheel_turn >>> (3 : Nat) = ((k >>> 3 : Nat) : Int) := by
    rw [hw, Int.shiftRight_eq_div_pow, Nat.shiftRight_eq_div_pow]
    norm_num
  refine ⟨?_, rfl, ?_⟩
  · simpa [main_compute] using hs
  · intro h8
    have hne : (HALL_interrupt^[k] s).wheel_turn >>> (3 : Nat) ≠ 0 := by
      rw [hs, Nat.shiftRight_eq_div_pow]
      have : 1 ≤ k / 2 ^ 3 := by
        rw [Nat.le_div_iff_mul_le (by norm_num)]
        omega
      omega
    obtain ⟨t, ht, h1, h2⟩ := main_body_of_speed_ne_zero _ hne
    exact ⟨t, ht, by rw [h1, hs], h2⟩

/-- Witness for C1: 20 sensor edges from the start-up state. -/
theorem C1_speed_after_k_edges_witness :
    (main_compute (HALL_interrupt^[20] startup)).speed = ((20 >>> 3 : Nat) : Int) ∧
    (main_compute (HALL_interrupt^[20] startup)).wheel_turn = 0 ∧
    (8 ≤ 20 → ∃ t, main_body (HALL_interrupt^[20] startup) = some t ∧
      t.speed = ((20 >>> 3 : Nat) : Int) ∧ t.wheel_turn = 0) :=
  C1_speed_after_k_edges startup 20 (by decide) (by decide)

/-- C1 fails as stated: after 32768 sensor edges the 16-bit counter has wrapped, and the body
of the loop leaves `speed = -4096`, not `32768 >> 3 = 4096`; and after no edge at all the body
of the loop has no result, because `set_timer` divides by `speed = 0`. -/
theorem C1_counterexample :
    (∃ t, main_body (HALL_interrupt^[32768] startup) = some t ∧ t.speed = -4096 ∧
      t.speed ≠ ((32768 >>> 3 : Nat) : Int)) ∧
    main_body (HALL_interrupt^[0] startup) = none := by
  have hw : (HALL_interrupt^[32768] startup).wheel_turn = -32768 := by
    rw [HALL_iterate_wheel_turn startup (by decide) 32768]
    decide
  have hne : (HALL_interrupt^[32768] startup).wheel_turn >>> (3 : Nat) ≠ 0 := by
    rw [hw]; decide
  obtain ⟨t, ht, h1, _⟩ := main_body_of_speed_ne_zero _ hne
  rw [hw] at h1
  have h4 : t.speed = -4096 := by rw [h1]; decide
  refine ⟨⟨t, ht, h4, ?_⟩, by decide⟩
  rw [h4]; decide

/-! ## Phase encoding -/

theorem phase_ok_of_eq {s t : State} (h1 : t.P1IE = s.P1IE) (h2 : t.IE1 = s.IE1)
    (h3 : t.TA1CCTL0 = s.TA1CCTL0) (h : phase_ok s) : phase_ok t := by
  unfold phase_ok hall_enabled wdt_enabled render_enabled at *
  rw [h1, h2, h3]
  exact h

theorem phase_ok_timer_A1 (s : State) (h : phase_ok s) : phase_ok (timer_A1 s) := by
  by_cases hc : s.column ≤ 6
  · exact phase_ok_of_eq (by simp [timer_A1, hc]) (by simp [timer_A1, hc])
      (by simp [timer_A1, hc]) h
  · simp [phase_ok, hall_enabled, wdt_enabled, render_enabled, timer_A1, hc, or_and_self,
      bic16_and_CCIE]
    decide

theorem phase_ok_watchdog_timer (s : State) (h : phase_ok s) :
    phase_ok (watchdog_timer s) := by
  refine phase_ok_of_eq ?_ ?_ ?_ h <;>
  · unfold watchdog_timer
    dsimp only
    split <;> rfl

theorem phase_ok_main_body (s t : State) (h : main_body s = some t) : phase_ok t := by
  unfold main_body set_timer at h
  dsimp only at h
  split at h
  · exact absurd h (by simp)
  · have ht := Option.some.inj h
    subst ht
    simp [phase_ok, hall_enabled, wdt_enabled, render_enabled, main_compute, bic8_and_HALL,
      bic8_and_WDTIE]
    decide

/-- C2: in every state reachable from the start-up state by the atomic steps `HALL_interrupt`,
`watchdog_timer`, `timer_A1`, the wait of line 63 and the body of the main loop (lines 64-68),
exactly one of "sensor interrupt enabled" and "render timer interrupt enabled" holds, and the
watchdog interrupt is enabled exactly when the sensor interrupt is. -/
theorem C2_phase_mutual_exclusion (s : State) (h : Reachable s) :
    (hall_enabled s = !render_enabled s) ∧ (wdt_enabled s = hall_enabled s) := by
  induction h with
  | start => decide
  | hall _ ih => exact phase_ok_of_eq rfl rfl rfl ih
  | wdt _ ih => exact phase_ok_watchdog_timer _ ih
  | timer _ ih => exact phase_ok_timer_A1 _ ih
  | wait _ ih => exact phase_ok_of_eq rfl rfl rfl ih
  | body _ hb _ => exact phase_ok_main_body _ _ hb

theorem Reachable_iterate_HALL (n : Nat) : Reachable (HALL_interrupt^[n] startup) := by
  induction n with
  | zero => exact Reachable.start
  | succ n ih =>
    rw [Function.iterate_succ_apply']
    exact Reachable.hall ih

set_option maxRecDepth 100000 in
theorem Reachable_armed : Reachable armed :=
  Reachable.body (Reachable_iterate_HALL 24) (by decide)

/-- Witness for C2: the state `armed`, reached by 24 sensor edges and the body of the main
loop, in which the render timer is enabled and the sensor is not. -/
theorem C2_phase_mutual_exclusion_witness :
    (hall_enabled armed = !render_enabled armed) ∧ (wdt_enabled armed = hall_enabled armed) :=
  C2_phase_mutual_exclusion armed Reachable_armed

/-! ## The render handler -/

theorem draw_digit_of_le_nine (d : Nat) (hd : d ≤ 9) (c : Int) (l : List LedCall) :
    draw_digit (d : Int) c l = l ++ [LedCall.glyph d c] := by
  interval_cases d <;> simp [draw_digit]

theorem timer_A1_draw (s : State) (d : Nat) (hd : d ≤ 9) (hs : s.speed = d) (j : Nat)
    (hj : j ≤ 6) (hc : s.column = j) :
    timer_A1 s = { s with
      leds := s.leds ++ [LedCall.ini_led, LedCall.glyph d (j : Int), LedCall.end_led]
      column := ((j + 1 : Nat) : Int) } := by
  have hw : wrap16 ((j : Int) + 1) = (j : Int) + 1 := wrap16_of_range (by omega) (by omega)
  simp [timer_A1, hj, hs, hc, draw_digit_of_le_nine d hd, hw]

theorem timer_A1_iterate_draw (s : State) (d : Nat) (hd : d ≤ 9) (hs : s.speed = d)
    (hc : s.column = 0) (j : Nat) (hj : j ≤ 7) :
    timer_A1^[j] s = { s with leds := s.leds ++ glyph_columns d j, column := (j : Int) } := by
  induction j with
  | zero => simp [glyph_columns, ← hc]
  | succ n ih =>
    rw [Function.iterate_succ_apply', ih (by omega)]
    have h := timer_A1_draw
      { s with leds := s.leds ++ glyph_columns d n, column := (n : Int) } d hd hs n
      (by omega) rfl
    rw [h]
    simp [glyph_columns]

theorem timer_A1_handoff (s : State) (hc : 6 < s.column) :
    timer_A1 s = { s with
      column := 0
      TA1CCTL0 := bic16 s.TA1CCTL0 CCIE
      P1IE := s.P1IE ||| HALL
      IE1 := s.IE1 ||| WDTIE } := by
  have h6 : ¬ s.column ≤ 6 := by omega
  simp [timer_A1, h6]

/-- C3: for every speed `d` in `[1,9]`, starting from a state with `column = 0` (as left by
the main loop when it arms the render timer), the first `j ≤ 7` firings of `timer_A1` draw
exactly the columns `0, ..., j-1` of the glyph of digit `d`, in that order, each between one
`ini_led` and one `end_led`, leave `column = j` and leave the interrupt enables alone; the
eighth firing draws nothing, resets `column` to 0, clears `CCIE` and sets both the `HALL` bit
of `P1IE` and `WDTIE`. -/
theorem C3_render_pass (s : State) (d : Nat) (hd1 : 1 ≤ d) (hd9 : d ≤ 9)
    (hs : s.speed = d) (hc : s.column = 0) :
    (∀ j : Nat, j ≤ 7 →
      (timer_A1^[j] s).leds = s.leds ++ glyph_columns d j ∧
      (timer_A1^[j] s).column = (j : Int) ∧
      (timer_A1^[j] s).P1IE = s.P1IE ∧ (timer_A1^[j] s).IE1 = s.IE1 ∧
      (timer_A1^[j] s).TA1CCTL0 = s.TA1CCTL0) ∧
    (timer_A1^[8] s).leds = s.leds ++ glyph_columns d 7 ∧
    (timer_A1^[8] s).column = 0 ∧
    render_enabled (timer_A1^[8] s) = false ∧
    hall_enabled (timer_A1^[8] s) = true ∧
    wdt_enabled (timer_A1^[8] s) = true := by
  have _ := hd1
  refine ⟨?_, ?_⟩
  · intro j hj
    rw [timer_A1_iterate_draw s d hd9 hs hc j hj]
    exact ⟨rfl, rfl, rfl, rfl, rfl⟩
  · have h8 : timer_A1^[8] s = timer_A1 (timer_A1^[7] s) := Function.iterate_succ_apply' _ 7 s
    rw [h8, timer_A1_iterate_draw s d hd9 hs hc 7 (le_refl 7), timer_A1_handoff _ (by simp)]
    refine ⟨rfl, rfl, ?_, ?_, ?_⟩
    · simp [render_enabled, bic16_and_CCIE]
    · simp [hall_enabled, or_and_self]; decide
    · simp [wdt_enabled, or_and_self]; decide

set_option maxRecDepth 100000 in
/-- Witness for C3: the render pass of speed 3 from the state `armed`. -/
theorem C3_render_pass_witness :
    (∀ j : Nat, j ≤ 7 →
      (timer_A1^[j] armed).leds = armed.leds ++ glyph_columns 3 j ∧
      (timer_A1^[j] armed).column = (j : Int) ∧
      (timer_A1^[j] armed).P1IE = armed.P1IE ∧ (timer_A1^[j] armed).IE1 = armed.IE1 ∧
      (timer_A1^[j] armed).TA1CCTL0 = armed.TA1CCTL0) ∧
    (timer_A1^[8] armed).leds = armed.leds ++ glyph_columns 3 7 ∧
    (timer_A1^[8] armed).column = 0 ∧
    render_enabled (timer_A1^[8] armed) = false ∧
    hall_enabled (timer_A1^[8] armed) = true ∧
    wdt_enabled (timer_A1^[8] armed) = true :=
  C3_render_pass armed 3 (by decide) (by decide) (by decide) (by decide)

/-! ## Arming the render timer -/

theorem main_body_of_speed_zero (s : State) (h0 : 0 ≤ s.wheel_turn) (h7 : s.wheel_turn ≤ 7) :
    (main_compute s).speed = 0 ∧ main_body s = none := by
  have hs : s.wheel_turn >>> (3 : Nat) = 0 := by
    rw [Int.shiftRight_eq_div_pow]
    norm_num
    omega
  have h1 : (main_compute s).speed = 0 := by simpa [main_compute] using hs
  have h2 : set_timer (main_compute s).speed (main_compute s) = none := by
    rw [h1]; rfl
  exact ⟨h1, h2⟩

/-- C4 (the code at the failing inputs): when the main loop is resumed with a wheel-turn count
in `0..7`, line 66 computes `speed = 0` and the body of the loop has no result, because
`set_timer(speed)` evaluates `DELAY/speed_set` with a zero divisor: the code neither clamps
the speed nor skips the render pass. -/
theorem C4_zero_speed_divides_by_zero (s : State) (h0 : 0 ≤ s.wheel_turn)
    (h7 : s.wheel_turn ≤ 7) :
    (main_compute s).speed = 0 ∧ set_timer (main_compute s).speed (main_compute s) = none ∧
    main_body s = none := by
  obtain ⟨h1, h2⟩ := main_body_of_speed_zero s h0 h7
  exact ⟨h1, h2, h2⟩

/-- Witness for C4: the start-up state, in which no wheel turn has been counted. -/
theorem C4_zero_speed_divides_by_zero_witness :
    (main_compute startup).speed = 0 ∧
    set_timer (main_compute startup).speed (main_compute startup) = none ∧
    main_body startup = none :=
  C4_zero_speed_divides_by_zero startup (by decide) (by decide)

theorem draw_digit_of_out_of_range (sp : Int) (h : sp < 0 ∨ 9 < sp) (c : Int)
    (l : List LedCall) : draw_digit sp c l = l := by
  have h0 : sp ≠ 0 := by omega
  have h1 : sp ≠ 1 := by omega
  have h2 : sp ≠ 2 := by omega
  have h3 : sp ≠ 3 := by omega
  have h4 : sp ≠ 4 := by omega
  have h5 : sp ≠ 5 := by omega
  have h6 : sp ≠ 6 := by omega
  have h7 : sp ≠ 7 := by omega
  have h8 : sp ≠ 8 := by omega
  have h9 : sp ≠ 9 := by omega
  unfold draw_digit
  rw [if_neg h0, if_neg h1, if_neg h2, if_neg h3, if_neg h4, if_neg h5, if_neg h6, if_neg h7,
    if_neg h8, if_neg h9]

theorem draw_digit_cases (sp : Int) :
    (∃ d : Nat, d ≤ 9 ∧ ∀ c l, draw_digit sp c l = l ++ [LedCall.glyph d c]) ∨
    (∀ c l, draw_digit sp c l = l) := by
  by_cases h : sp < 0 ∨ 9 < sp
  · exact Or.inr (draw_digit_of_out_of_range sp h)
  · left
    lift sp to Nat using (by omega)
    exact ⟨sp, by omega, draw_digit_of_le_nine sp (by omega)⟩

theorem timer_A1_calls (t : State) :
    ∃ l, (timer_A1 t).leds = t.leds ++ l ∧ ∀ d c, LedCall.glyph d c ∈ l → d ≤ 9 := by
  by_cases hc : t.column ≤ 6
  · rcases draw_digit_cases t.speed with ⟨e, he, h⟩ | h
    · refine ⟨[LedCall.ini_led, LedCall.glyph e t.column, LedCall.end_led], ?_, ?_⟩
      · simp [timer_A1, hc, h]
      · intro d c hmem
        simp at hmem
        omega
    · refine ⟨[LedCall.ini_led, LedCall.end_led], ?_, ?_⟩
      · simp [timer_A1, hc, h]
      · intro d c hmem
        simp at hmem
  · exact ⟨[], by simp [timer_A1, hc], by simp⟩

/-- C5 (as amended): for every speed value `≥ 10`, a drawing firing of `timer_A1`
(`column ≤ 6`) calls `ini_led` and then `end_led` with no digit function between them, so it
draws no column (there is no clamping to 9); and no firing of `timer_A1`, whatever the speed,
requests a glyph for a digit outside `0..9`. -/
theorem C5_speed_above_nine_draws_no_glyph (s : State) (h10 : 10 ≤ s.speed)
    (hc : s.column ≤ 6) :
    (timer_A1 s).leds = s.leds ++ [LedCall.ini_led, LedCall.end_led] ∧
    (∀ t : State, ∃ l, (timer_A1 t).leds = t.leds ++ l ∧
      ∀ d c, LedCall.glyph d c ∈ l → d ≤ 9) := by
  refine ⟨?_, timer_A1_calls⟩
  have h := draw_digit_of_out_of_range s.speed (Or.inr (by omega)) s.column
    (s.leds ++ [LedCall.ini_led])
  simp [timer_A1, hc, h]

/-- Witness for C5: speed 10 at column 0. -/
theorem C5_speed_above_nine_draws_no_glyph_witness :
    (timer_A1 { startup with speed := 10 }).leds
      = ({ startup with speed := 10 } : State).leds ++ [LedCall.ini_led, LedCall.end_led] ∧
    (∀ t : State, ∃ l, (timer_A1 t).leds = t.leds ++ l ∧
      ∀ d c, LedCall.glyph d c ∈ l → d ≤ 9) :=
  C5_speed_above_nine_draws_no_glyph { startup with speed := 10 } (by decide) (by decide)

/-- C5 fails as stated: with `speed = 10` and `column = 0` the firing of `timer_A1` makes the
calls `ini_led`, `end_led` only; the column 0 of digit 9 is not drawn. -/
theorem C5_counterexample :
    (timer_A1 { startup with speed := 10 }).leds = [LedCall.ini_led, LedCall.end_led] ∧
    LedCall.glyph 9 0 ∉ (timer_A1 { startup with speed := 10 }).leds := by
  decide

theorem wrap16_mod_of_le (q : Nat) (h : q ≤ 65000) :
    (wrap16 (q : Int) % 65536).toNat = q := by
  unfold wrap16; omega

theorem set_timer_interval (s : State) (n : Nat) (hn : 1 ≤ n) :
    ∃ t, set_timer (n : Int) s = some t ∧ t.TA1CCR0 = 65000 / n := by
  have hq : Int.tdiv DELAY (n : Int) = ((65000 / n : Nat) : Int) :=
    (Int.ofNat_tdiv 65000 n).symm
  have hw := wrap16_mod_of_le (65000 / n) (Nat.div_le_self _ _)
  have hn0 : (n : Int) ≠ 0 := by omega
  have h : set_timer (n : Int) s = some { s with
      TA1CCTL0 := CCIE
      TA1CCR0 := (wrap16 (Int.tdiv DELAY (n : Int)) % 65536).toNat
      TA1CTL := TASSEL_2 + MC_1 } := by
    unfold set_timer
    dsimp only
    rw [if_neg hn0]
  refine ⟨_, h, ?_⟩
  dsimp only
  rw [hq, hw]

/-- C6: for all speeds `s1 ≤ s2` with `s1 ≥ 1`, `set_timer` completes for both, the interval it
loads into `TA1CCR0` is `65000 / speed`, and the interval loaded for `s2` is less than or equal
to the one loaded for `s1`. -/
theorem C6_interval_antitone (s : State) (s1 s2 : Int) (h1 : 1 ≤ s1) (h12 : s1 ≤ s2) :
    ∃ t1 t2, set_timer s1 s = some t1 ∧ set_timer s2 s = some t2 ∧
      (t1.TA1CCR0 : Int) = 65000 / s1 ∧ (t2.TA1CCR0 : Int) = 65000 / s2 ∧
      t2.TA1CCR0 ≤ t1.TA1CCR0 := by
  lift s1 to Nat using (by omega)
  lift s2 to Nat using (by omega)
  have h1n : 1 ≤ s1 := by exact_mod_cast h1
  have h12n : s1 ≤ s2 := by exact_mod_cast h12
  obtain ⟨t1, ht1, e1⟩ := set_timer_interval s s1 h1n
  obtain ⟨t2, ht2, e2⟩ := set_timer_interval s s2 (le_trans h1n h12n)
  refine ⟨t1, t2, ht1, ht2, ?_, ?_, ?_⟩
  · rw [e1]; norm_cast
  · rw [e2]; norm_cast
  · rw [e1, e2]
    exact Nat.div_le_div_left h12n h1n

/-- Witness for C6: speeds 2 and 5 from the start-up state. -/
theorem C6_interval_antitone_witness :
    ∃ t1 t2, set_timer 2 startup = some t1 ∧ set_timer 5 startup = some t2 ∧
      (t1.TA1CCR0 : Int) = 65000 / 2 ∧ (t2.TA1CCR0 : Int) = 65000 / 5 ∧
      t2.TA1CCR0 ≤ t1.TA1CCR0 :=
  C6_interval_antitone startup 2 5 (by decide) (by decide)

/-! ## The wait of the main loop -/

/-- C7 (the code at every input): after line 63, `__bic_SR_register(CPUOFF + GIE)`, both the
`CPUOFF` bit and the `GIE` bit of the status register are clear, whatever they were before:
the processor is left running with interrupts globally disabled, not suspended in low-power
mode with interrupts enabled. -/
theorem C7_wait_clears_CPUOFF_and_GIE (s : State) :
    (main_wait s).SR &&& CPUOFF = 0 ∧ (main_wait s).SR &&& GIE = 0 := by
  have h1 : (0xFFFF ^^^ (CPUOFF + GIE)) &&& CPUOFF = 0 := by decide
  have h2 : (0xFFFF ^^^ (CPUOFF + GIE)) &&& GIE = 0 := by decide
  constructor
  · show s.SR &&& (0xFFFF ^^^ (CPUOFF + GIE)) &&& CPUOFF = 0
    rw [Nat.and_assoc, h1, Nat.and_zero]
  · show s.SR &&& (0xFFFF ^^^ (CPUOFF + GIE)) &&& GIE = 0
    rw [Nat.and_assoc, h2, Nat.and_zero]

/-! ## The sample window timer -/

theorem watchdog_timer_of_lt (s : State) (h0 : 0 ≤ s.wdt_counter) (h : s.wdt_counter < 29) :
    watchdog_timer s = { s with wdt_counter := s.wdt_counter + 1 } := by
  have hw : wrap16 (s.wdt_counter + 1) = s.wdt_counter + 1 :=
    wrap16_of_range (by omega) (by omega)
  have hne : ¬ s.wdt_counter + 1 = 30 := by omega
  simp [watchdog_timer, hw, hne]

theorem watchdog_timer_of_eq (s : State) (h : s.wdt_counter = 29) :
    watchdog_timer s = { s with
      wdt_counter := 0
      SR := bic16 s.SR CPUOFF
      wakes := s.wakes + 1 } := by
  have hw : wrap16 (s.wdt_counter + 1) = 30 := by rw [h]; decide
  simp [watchdog_timer, hw]

theorem watchdog_iterate (s : State) (h0 : s.wdt_counter = 0) (n : Nat) :
    (watchdog_timer^[n] s).wdt_counter = ((n % 30 : Nat) : Int) ∧
    (watchdog_timer^[n] s).wakes = s.wakes + n / 30 := by
  induction n with
  | zero => simp [h0]
  | succ n ih =>
    obtain ⟨ih1, ih2⟩ := ih
    rw [Function.iterate_succ_apply']
    by_cases h29 : n % 30 = 29
    · rw [watchdog_timer_of_eq _ (by rw [ih1, h29]; rfl)]
      dsimp only
      rw [ih2]
      constructor
      · have : (n + 1) % 30 = 0 := by omega
        rw [this]; rfl
      · omega
    · rw [watchdog_timer_of_lt _ (by rw [ih1]; omega) (by rw [ih1]; omega)]
      dsimp only
      rw [ih1, ih2]
      constructor
      · have : (n + 1) % 30 = n % 30 + 1 := by omega
        rw [this]; push_cast; rfl
      · omega

/-- C9: starting from `wdt_counter = 0`, after any number `n` of executions of
`watchdog_timer` the counter is `n mod 30`, so `0 ≤ wdt_counter < 30`; the next execution
issues the wake signal (one more `__bic_SR_register_on_exit(CPUOFF)`, which clears `CPUOFF`)
if and only if the counter was 29 on entry, and then leaves `wdt_counter = 0`; otherwise it
issues none and leaves the status register alone.  Hence the firing number `n + 1` wakes the
main loop exactly when `n + 1` is a multiple of 30, and `n` firings wake it `n / 30` times. -/
theorem C9_sample_window_timer (s : State) (h0 : s.wdt_counter = 0) (n : Nat) :
    (0 ≤ (watchdog_timer^[n] s).wdt_counter ∧ (watchdog_timer^[n] s).wdt_counter < 30) ∧
    (watchdog_timer^[n] s).wdt_counter = ((n % 30 : Nat) : Int) ∧
    ((watchdog_timer^[n] s).wdt_counter = 29 →
      (watchdog_timer^[n + 1] s).wakes = (watchdog_timer^[n] s).wakes + 1 ∧
      (watchdog_timer^[n + 1] s).SR &&& CPUOFF = 0 ∧
      (watchdog_timer^[n + 1] s).wdt_counter = 0) ∧
    ((watchdog_timer^[n] s).wdt_counter ≠ 29 →
      (watchdog_timer^[n + 1] s).wakes = (watchdog_timer^[n] s).wakes ∧
      (watchdog_timer^[n + 1] s).SR = (watchdog_timer^[n] s).SR) ∧
    ((watchdog_timer^[n + 1] s).wakes = (watchdog_timer^[n] s).wakes + 1 ↔ 30 ∣ n + 1) ∧
    (watchdog_timer^[n] s).wakes = s.wakes + n / 30 := by
  obtain ⟨h1, h2⟩ := watchdog_iterate s h0 n
  obtain ⟨_, h4⟩ := watchdog_iterate s h0 (n + 1)
  have hCPU : ∀ r, bic16 r CPUOFF &&& CPUOFF = 0 := by
    intro r
    have h : (0xFFFF ^^^ CPUOFF) &&& CPUOFF = 0 := by decide
    unfold bic16
    rw [Nat.and_assoc, h, Nat.and_zero]
  refine ⟨⟨by rw [h1]; omega, by rw [h1]; omega⟩, h1, ?_, ?_, ?_, h2⟩
  · intro h29
    rw [Function.iterate_succ_apply', watchdog_timer_of_eq _ h29]
    exact ⟨rfl, hCPU _, rfl⟩
  · intro hne
    rw [Function.iterate_succ_apply',
      watchdog_timer_of_lt _ (by rw [h1]; omega) (by rw [h1] at hne ⊢; omega)]
    exact ⟨rfl, rfl⟩
  · rw [h4, h2]
    omega

/-- Witness for C9: 59 firings from the start-up state, so that the 60th wakes the main
loop. -/
theorem C9_sample_window_timer_witness :
    (0 ≤ (watchdog_timer^[59] startup).wdt_counter ∧
      (watchdog_timer^[59] startup).wdt_counter < 30) ∧
    (watchdog_timer^[59] startup).wdt_counter = ((59 % 30 : Nat) : Int) ∧
    ((watchdog_timer^[59] startup).wdt_counter = 29 →
      (watchdog_timer^[59 + 1] startup).wakes = (watchdog_timer^[59] startup).wakes + 1 ∧
      (watchdog_timer^[59 + 1] startup).SR &&& CPUOFF = 0 ∧
      (watchdog_timer^[59 + 1] startup).wdt_counter = 0) ∧
    ((watchdog_timer^[59] startup).wdt_counter ≠ 29 →
      (watchdog_timer^[59 + 1] startup).wakes = (watchdog_timer^[59] startup).wakes ∧
      (watchdog_timer^[59 + 1] startup).SR = (watchdog_timer^[59] startup).SR) ∧
    ((watchdog_timer^[59 + 1] startup).wakes = (watchdog_timer^[59] startup).wakes + 1 ↔
      30 ∣ 59 + 1) ∧
    (watchdog_timer^[59] startup).wakes = startup.wakes + 59 / 30 :=
  C9_sample_window_timer startup (by decide) 59

/-! ## The sensor edge latch -/

theorem bic8_HALL_testBit (r : Nat) (hr : r < 256) (i : Nat) :
    (bic8 r HALL).testBit i = (decide (i ≠ 0) && r.testBit i) := by
  unfold bic8
  rw [Nat.testBit_and]
  by_cases hi : i < 8
  · have hb : (0xFF ^^^ HALL).testBit i = decide (i ≠ 0) := by
      interval_cases i <;> decide
    rw [hb, Bool.and_comm]
  · have hlt : r < 2 ^ i :=
      lt_of_lt_of_le hr (by
        have : 2 ^ 8 ≤ 2 ^ i := Nat.pow_le_pow_right (by norm_num) (by omega)
        simpa using this)
    rw [Nat.testBit_lt_two_pow hlt]
    simp

/-- C10 (as amended): for every state whose 8-bit register `P1IFG` holds a value below 256, one
execution of `HALL_interrupt` increases `wheel_turn` by exactly 1 provided `wheel_turn` is in
the range `-32768 ≤ wheel_turn < 32767` of a 16-bit `int` that can be incremented, clears the
`HALL` bit of `P1IFG` and leaves its other bits as they were, and leaves `wdt_counter`,
`column`, `speed`, the interrupt-enable registers and every other part of the state
unchanged. -/
theorem C10_HALL_interrupt_effect (s : State) (hr : s.P1IFG < 256) :
    (-32768 ≤ s.wheel_turn → s.wheel_turn < 32767 →
      (HALL_interrupt s).wheel_turn = s.wheel_turn + 1) ∧
    (HALL_interrupt s).P1IFG &&& HALL = 0 ∧
    (∀ i, (HALL_interrupt s).P1IFG.testBit i = (decide (i ≠ 0) && s.P1IFG.testBit i)) ∧
    (HALL_interrupt s).wdt_counter = s.wdt_counter ∧
    (HALL_interrupt s).column = s.column ∧
    (HALL_interrupt s).speed = s.speed ∧
    (HALL_interrupt s).P1IE = s.P1IE ∧
    (HALL_interrupt s).IE1 = s.IE1 ∧
    (HALL_interrupt s).TA1CCTL0 = s.TA1CCTL0 ∧
    (HALL_interrupt s).SR = s.SR ∧
    HALL_interrupt s = { s with
      wheel_turn := (HALL_interrupt s).wheel_turn
      P1IFG := (HALL_interrupt s).P1IFG } := by
  refine ⟨?_, bic8_and_HALL _, bic8_HALL_testBit _ hr, rfl, rfl, rfl, rfl, rfl, rfl, rfl, rfl⟩
  intro h1 h2
  exact wrap16_of_range (by omega) (by omega)

/-- Witness for C10: the start-up state. -/
theorem C10_HALL_interrupt_effect_witness :
    (-32768 ≤ startup.wheel_turn → startup.wheel_turn < 32767 →
      (HALL_interrupt startup).wheel_turn = startup.wheel_turn + 1) ∧
    (HALL_interrupt startup).P1IFG &&& HALL = 0 ∧
    (∀ i, (HALL_interrupt startup).P1IFG.testBit i
      = (decide (i ≠ 0) && startup.P1IFG.testBit i)) ∧
    (HALL_interrupt startup).wdt_counter = startup.wdt_counter ∧
    (HALL_interrupt startup).column = startup.column ∧
    (HALL_interrupt startup).speed = startup.speed ∧
    (HALL_interrupt startup).P1IE = startup.P1IE ∧
    (HALL_interrupt startup).IE1 = startup.IE1 ∧
    (HALL_interrupt startup).TA1CCTL0 = startup.TA1CCTL0 ∧
    (HALL_interrupt startup).SR = startup.SR ∧
    HALL_interrupt startup = { startup with
      wheel_turn := (HALL_interrupt startup).wheel_turn
      P1IFG := (HALL_interrupt startup).P1IFG } :=
  C10_HALL_interrupt_effect startup (by decide)

/-- C10 fails as stated: in a state with `wheel_turn = 32767` one execution of
`HALL_interrupt` leaves `wheel_turn = -32768`, which is not `32767 + 1`. -/
theorem C10_counterexample :
    (HALL_interrupt { startup with wheel_turn := 32767 }).wheel_turn = -32768 ∧
    (HALL_interrupt { startup with wheel_turn := 32767 }).wheel_turn
      ≠ ({ startup with wheel_turn := 32767 } : State).wheel_turn + 1 := by
  decide

/-! ## Whole cycles -/

theorem measure_window_cons (e : MeasureEvent) (w : List MeasureEvent) (s : State) :
    measure_window (e :: w) s = measure_window w (measure_step e s) := rfl

theorem watchdog_timer_frame (s : State) :
    (watchdog_timer s).wheel_turn = s.wheel_turn ∧ (watchdog_timer s).column = s.column ∧
    (watchdog_timer s).speed = s.speed ∧ (watchdog_timer s).leds = s.leds ∧
    (watchdog_timer s).P1IE = s.P1IE ∧ (watchdog_timer s).IE1 = s.IE1 ∧
    (watchdog_timer s).TA1CCTL0 = s.TA1CCTL0 := by
  unfold watchdog_timer
  dsimp only
  split <;> exact ⟨rfl, rfl, rfl, rfl, rfl, rfl, rfl⟩

theorem watchdog_timer_counter (s : State) (h0 : 0 ≤ s.wdt_counter)
    (h30 : s.wdt_counter < 30) :
    (watchdog_timer s).wdt_counter = (s.wdt_counter + 1) % 30 := by
  by_cases h : s.wdt_counter = 29
  · rw [watchdog_timer_of_eq s h, h]; rfl
  · rw [watchdog_timer_of_lt s h0 (by omega)]
    dsimp only
    omega

theorem measure_window_spec (w : List MeasureEvent) (s : State)
    (hw1 : -32768 ≤ s.wheel_turn) (hw2 : s.wheel_turn ≤ 32767)
    (hc1 : 0 ≤ s.wdt_counter) (hc2 : s.wdt_counter < 30) :
    (measure_window w s).wheel_turn
      = wrap16 (s.wheel_turn + (w.count MeasureEvent.edge : Nat)) ∧
    (measure_window w s).wdt_counter
      = (s.wdt_counter + (w.count MeasureEvent.tick : Nat)) % 30 ∧
    (measure_window w s).column = s.column ∧ (measure_window w s).speed = s.speed ∧
    (measure_window w s).leds = s.leds ∧ (measure_window w s).P1IE = s.P1IE ∧
    (measure_window w s).IE1 = s.IE1 ∧ (measure_window w s).TA1CCTL0 = s.TA1CCTL0 := by
  induction w generalizing s with
  | nil =>
    refine ⟨?_, ?_, rfl, rfl, rfl, rfl, rfl, rfl⟩
    · simp [measure_window, wrap16_of_range hw1 hw2]
    · simp [measure_window]; omega
  | cons e w ih =>
    rw [measure_window_cons]
    cases e with
    | edge =>
      have hwt : (HALL_interrupt s).wheel_turn = wrap16 (s.wheel_turn + 1) := rfl
      have hr : -32768 ≤ wrap16 (s.wheel_turn + 1) ∧ wrap16 (s.wheel_turn + 1) ≤ 32767 := by
        unfold wrap16; omega
      obtain ⟨a1, a2, a3, a4, a5, a6, a7, a8⟩ :=
        ih (HALL_interrupt s) (by rw [hwt]; exact hr.1) (by rw [hwt]; exact hr.2) hc1 hc2
      refine ⟨?_, ?_, a3, a4, a5, a6, a7, a8⟩
      · show (measure_window w (HALL_interrupt s)).wheel_turn = _
        rw [a1, hwt]
        simp only [List.count_cons_self]
        push_cast
        unfold wrap16
        omega
      · show (measure_window w (HALL_interrupt s)).wdt_counter = _
        rw [a2]
        have hcnt : (MeasureEvent.edge :: w).count MeasureEvent.tick
            = w.count MeasureEvent.tick := by
          simp [List.count_cons]
        rw [hcnt]
        rfl
    | tick =>
      obtain ⟨f1, f2, f3, f4, f5, f6, f7⟩ := watchdog_timer_frame s
      have hct := watchdog_timer_counter s hc1 hc2
      obtain ⟨a1, a2, a3, a4, a5, a6, a7, a8⟩ :=
        ih (watchdog_timer s) (by rw [f1]; exact hw1) (by rw [f1]; exact hw2)
          (by rw [hct]; omega) (by rw [hct]; omega)
      refine ⟨?_, ?_, a3.trans f2, a4.trans f3, a5.trans f4, a6.trans f5, a7.trans f6,
        a8.trans f7⟩
      · show (measure_window w (watchdog_timer s)).wheel_turn = _
        rw [a1, f1]
        have hcnt : (MeasureEvent.tick :: w).count MeasureEvent.edge
            = w.count MeasureEvent.edge := by
          simp [List.count_cons]
        rw [hcnt]
      · show (measure_window w (watchdog_timer s)).wdt_counter = _
        rw [a2, hct]
        simp only [List.count_cons_self]
        push_cast
        omega

/-- C8 (the code at the failing inputs): from a state with `wheel_turn = 0`, a cycle whose
MEASURE window holds at most 7 sensor edges, in any interleaving with the watchdog firings,
has no result, because the body of the loop divides by `speed = 0`; so a run of cycles that
starts with such a window yields neither a speed nor a sequence of glyph calls. -/
theorem C8_cycle_below_eight_edges_undefined (w : List MeasureEvent)
    (ws : List (List MeasureEvent)) (s : State) (h0 : s.wheel_turn = 0)
    (hc1 : 0 ≤ s.wdt_counter) (hc2 : s.wdt_counter < 30)
    (hk : w.count MeasureEvent.edge ≤ 7) :
    cycle w s = none ∧ cycles (w :: ws) s = none := by
  obtain ⟨a1, _⟩ := measure_window_spec w s (by omega) (by omega) hc1 hc2
  have hwt : (measure_window w s).wheel_turn = (w.count MeasureEvent.edge : Nat) := by
    rw [a1, h0, zero_add]
    exact wrap16_of_range (by omega) (by omega)
  have hb := (main_body_of_speed_zero (measure_window w s) (by omega) (by omega)).2
  have hcy : cycle w s = none := by
    unfold cycle
    rw [hb]
    rfl
  refine ⟨hcy, ?_⟩
  show (cycle w s).bind (cycles ws) = none
  rw [hcy]
  rfl

/-- Witness for C8: one cycle from the start-up state whose window holds the 30 watchdog
firings and no sensor edge. -/
theorem C8_cycle_below_eight_edges_undefined_witness :
    cycle (List.replicate 30 MeasureEvent.tick) startup = none ∧
    cycles (List.replicate 30 MeasureEvent.tick :: []) startup = none :=
  C8_cycle_below_eight_edges_undefined (List.replicate 30 MeasureEvent.tick) [] startup
    (by decide) (by decide) (by decide) (by decide)

theorem main_body_eq (s : State) (h : s.wheel_turn >>> (3 : Nat) ≠ 0) :
    main_body s = some { s with
      P1IE := bic8 s.P1IE HALL
      IE1 := bic8 s.IE1 WDTIE
      speed := s.wheel_turn >>> (3 : Nat)
      wheel_turn := 0
      TA1CCTL0 := CCIE
      TA1CCR0 := (wrap16 (Int.tdiv DELAY (s.wheel_turn >>> (3 : Nat))) % 65536).toNat
      TA1CTL := TASSEL_2 + MC_1 } := by
  simp [main_body, main_compute, set_timer, h]

theorem draw_digit_append (sp c : Int) (l m : List LedCall) :
    draw_digit sp c (l ++ m) = l ++ draw_digit sp c m := by
  rcases draw_digit_cases sp with ⟨d, _, h⟩ | h
  · rw [h, h, List.append_assoc]
  · rw [h, h]

theorem timer_A1_draw_any (s : State) (j : Nat) (hj : j ≤ 6) (hc : s.column = j) :
    timer_A1 s = { s with
      leds := s.leds ++ draw_digit s.speed (j : Int) [LedCall.ini_led] ++ [LedCall.end_led]
      column := ((j + 1 : Nat) : Int) } := by
  have hw : wrap16 ((j : Int) + 1) = (j : Int) + 1 := wrap16_of_range (by omega) (by omega)
  have h := draw_digit_append s.speed (j : Int) s.leds [LedCall.ini_led]
  simp [timer_A1, hj, hc, hw, h]

theorem timer_A1_iterate_any (s : State) (hc : s.column = 0) (j : Nat) (hj : j ≤ 7) :
    timer_A1^[j] s
      = { s with leds := s.leds ++ pass_calls s.speed j, column := (j : Int) } := by
  induction j with
  | zero => simp [pass_calls, ← hc]
  | succ n ih =>
    rw [Function.iterate_succ_apply', ih (by omega)]
    have h := timer_A1_draw_any
      { s with leds := s.leds ++ pass_calls s.speed n, column := (n : Int) } n (by omega) rfl
    rw [h]
    simp [pass_calls]

theorem render_pass_eq (s : State) (hc : s.column = 0) :
    timer_A1^[8] s = { s with
      leds := s.leds ++ pass_calls s.speed 7
      column := 0
      TA1CCTL0 := bic16 s.TA1CCTL0 CCIE
      P1IE := s.P1IE ||| HALL
      IE1 := s.IE1 ||| WDTIE } := by
  have h8 : timer_A1^[8] s = timer_A1 (timer_A1^[7] s) := Function.iterate_succ_apply' _ 7 s
  rw [h8, timer_A1_iterate_any s hc 7 (le_refl 7), timer_A1_handoff _ (by simp)]

/-- One cycle with `k` sensor edges, `8 ≤ k ≤ 32767`, and 30 watchdog firings in its window,
in any interleaving: from a state with `wheel_turn = 0`, `wdt_counter = 0`, `column = 0` the
cycle completes, leaves `speed = k / 8`, makes the calls of one render pass for that speed,
and ends in the MEASURE phase with the three counters back at 0. -/
theorem cycle_spec (w : List MeasureEvent) (s : State) (hs : cycle_start s) (k : Nat)
    (hk : w.count MeasureEvent.edge = k) (h8 : 8 ≤ k) (hmax : k ≤ 32767)
    (ht : w.count MeasureEvent.tick = 30) :
    ∃ t, cycle w s = some t ∧ cycle_start t ∧ t.speed = ((k / 8 : Nat) : Int) ∧
      t.leds = s.leds ++ pass_calls ((k / 8 : Nat) : Int) 7 ∧
      hall_enabled t = true ∧ wdt_enabled t = true ∧ render_enabled t = false := by
  obtain ⟨hs1, hs2, hs3⟩ := hs
  obtain ⟨a1, a2, a3, _, a5, _, _, _⟩ :=
    measure_window_spec w s (by omega) (by omega) (by omega) (by omega)
  have hwt : (measure_window w s).wheel_turn = (k : Int) := by
    rw [a1, hs1, zero_add, hk]
    exact wrap16_of_range (by omega) (by omega)
  have hsp : (measure_window w s).wheel_turn >>> (3 : Nat) = ((k / 8 : Nat) : Int) := by
    rw [hwt, Int.shiftRight_eq_div_pow]
    norm_num
  have hne : (measure_window w s).wheel_turn >>> (3 : Nat) ≠ 0 := by
    rw [hsp]
    have : 1 ≤ k / 8 := by omega
    omega
  have hwd : (measure_window w s).wdt_counter = 0 := by
    rw [a2, hs2, ht]; rfl
  have hcy : cycle w s = some (timer_A1^[8] { measure_window w s with
      P1IE := bic8 (measure_window w s).P1IE HALL
      IE1 := bic8 (measure_window w s).IE1 WDTIE
      speed := (measure_window w s).wheel_turn >>> (3 : Nat)
      wheel_turn := 0
      TA1CCTL0 := CCIE
      TA1CCR0 :=
        (wrap16 (Int.tdiv DELAY ((measure_window w s).wheel_turn >>> (3 : Nat))) % 65536).toNat
      TA1CTL := TASSEL_2 + MC_1 }) := by
    unfold cycle
    rw [main_body_eq _ hne]
    rfl
  refine ⟨_, hcy, ?_⟩
  · rw [render_pass_eq _ (by rw [← hs3, ← a3])]
    dsimp only
    refine ⟨⟨rfl, hwd, rfl⟩, hsp, ?_, ?_, ?_, ?_⟩
    · rw [a5, hsp]
    · simp [hall_enabled, or_and_self]; decide
    · simp [wdt_enabled, or_and_self]; decide
    · simp [render_enabled, bic16_and_CCIE]

/-- Determinism across cycles, where the code is defined: for every `k` with
`8 ≤ k ≤ 32767` and every list of windows that each hold `k` sensor edges and 30 watchdog
firings, the run of all the cycles from a state with the three counters at 0 completes, every
cycle starts from counters at 0, the calls made are those of one and the same render pass
(that of speed `k / 8`) repeated once per cycle, and `speed` ends at `k / 8`. -/
theorem cycles_deterministic (k : Nat) (h8 : 8 ≤ k) (hmax : k ≤ 32767)
    (ws : List (List MeasureEvent))
    (hws : ∀ w ∈ ws, w.count MeasureEvent.edge = k ∧ w.count MeasureEvent.tick = 30)
    (s : State) (hs : cycle_start s) :
    ∃ t, cycles ws s = some t ∧ cycle_start t ∧
      t.leds = s.leds ++ repeat_calls (pass_calls ((k / 8 : Nat) : Int) 7) ws.length ∧
      (ws ≠ [] → t.speed = ((k / 8 : Nat) : Int)) := by
  induction ws generalizing s with
  | nil => exact ⟨s, rfl, hs, by simp [repeat_calls], fun h => absurd rfl h⟩
  | cons w ws ih =>
    obtain ⟨hk, ht⟩ := hws w (List.mem_cons_self _ _)
    obtain ⟨t, ht1, ht2, ht3, ht4, _⟩ := cycle_spec w s hs k hk h8 hmax ht
    obtain ⟨u, hu1, hu2, hu3, hu4⟩ :=
      ih (fun v hv => hws v (List.mem_cons_of_mem _ hv)) t ht2
    refine ⟨u, ?_, hu2, ?_, ?_⟩
    · show (cycle w s).bind (cycles ws) = some u
      rw [ht1]
      exact hu1
    · rw [hu3, ht4]
      simp [repeat_calls]
    · intro _
      by_cases hnil : ws = []
      · subst hnil
        have : u = t := by
          have h := hu1
          simp [cycles] at h
          exact h.symm
        rw [this]
        exact ht3
      · exact hu4 hnil

/-- Three cycles of 24 sensor edges each from the start-up state: the same render pass, that
of speed 3, three times. -/
theorem cycles_deterministic_startup :
    ∃ t, cycles (List.replicate 3
        (List.replicate 24 MeasureEvent.edge ++ List.replicate 30 MeasureEvent.tick)) startup
        = some t ∧ cycle_start t ∧
      t.leds = startup.leds ++ repeat_calls (pass_calls ((24 / 8 : Nat) : Int) 7) 3 ∧
      t.speed = 3 := by
  obtain ⟨t, h1, h2, h3, h4⟩ := cycles_deterministic 24 (by decide) (by decide)
    (List.replicate 3
      (List.replicate 24 MeasureEvent.edge ++ List.replicate 30 MeasureEvent.tick))
    (by
      intro w hw
      rw [List.eq_of_mem_replicate hw]
      decide)
    startup ⟨rfl, rfl, rfl⟩
  exact ⟨t, h1, h2, h3, h4 (by decide)⟩

/-! ## The column counter -/

theorem timer_A1_frame (s : State) :
    (timer_A1 s).speed = s.speed ∧ (timer_A1 s).wheel_turn = s.wheel_turn ∧
    (timer_A1 s).wdt_counter = s.wdt_counter ∧ (timer_A1 s).SR = s.SR := by
  by_cases hc : s.column ≤ 6 <;> simp [timer_A1, hc]

theorem timer_A1_column_range (s : State) (h0 : 0 ≤ s.column) :
    0 ≤ (timer_A1 s).column ∧ (timer_A1 s).column ≤ 7 := by
  by_cases hc : s.column ≤ 6
  · have hw : wrap16 (s.column + 1) = s.column + 1 := wrap16_of_range (by omega) (by omega)
    have h : (timer_A1 s).column = s.column + 1 := by simp [timer_A1, hc, hw]
    rw [h]
    omega
  · have h : (timer_A1 s).column = 0 := by simp [timer_A1, hc]
    rw [h]
    omega

theorem main_body_frame (s t : State) (h : main_body s = some t) :
    t.column = s.column ∧ t.wdt_counter = s.wdt_counter := by
  unfold main_body set_timer at h
  dsimp only at h
  split at h
  · exact absurd h (by simp)
  · have ht := Option.some.inj h
    subst ht
    exact ⟨rfl, rfl⟩

theorem Reachable_iterate_timer (s : State) (h : Reachable s) (n : Nat) :
    Reachable (timer_A1^[n] s) := by
  induction n with
  | zero => exact h
  | succ n ih =>
    rw [Function.iterate_succ_apply']
    exact Reachable.timer ih

/-- C11 (as amended): in every state reachable from start-up by the handlers and the steps of
the main loop, observed between handler executions, the column counter satisfies
`0 ≤ column ≤ 7`. -/
theorem C11_column_range (s : State) (h : Reachable s) : 0 ≤ s.column ∧ s.column ≤ 7 := by
  induction h with
  | start => decide
  | hall _ ih => exact ih
  | wdt _ ih =>
    rw [(watchdog_timer_frame _).2.1]
    exact ih
  | timer _ ih => exact timer_A1_column_range _ ih.1
  | wait _ ih => exact ih
  | body _ hb ih =>
    rw [(main_body_frame _ _ hb).1]
    exact ih

set_option maxRecDepth 100000 in
/-- Witness for C11: the state between the seventh firing of `timer_A1` of the render pass
started in `armed` and the hand-off. -/
theorem C11_column_range_witness :
    0 ≤ (timer_A1^[7] armed).column ∧ (timer_A1^[7] armed).column ≤ 7 :=
  C11_column_range (timer_A1^[7] armed) (Reachable_iterate_timer armed Reachable_armed 7)

set_option maxRecDepth 100000 in
/-- C11 fails as stated: the state after the seventh firing of `timer_A1` of the render pass
started in `armed` is reachable, the render timer is still enabled in it (the hand-off has
not happened yet), and its column counter is 7, which is not below 7. -/
theorem C11_counterexample :
    Reachable (timer_A1^[7] armed) ∧ render_enabled (timer_A1^[7] armed) = true ∧
    (timer_A1^[7] armed).column = 7 ∧ ¬ (timer_A1^[7] armed).column < 7 :=
  ⟨Reachable_iterate_timer armed Reachable_armed 7, by decide, by decide, by decide⟩

/-! ## Ownership of the shared variables -/

theorem bic16_CPUOFF_and_GIE (r : Nat) : bic16 r CPUOFF &&& GIE = r &&& GIE := by
  have h : (0xFFFF ^^^ CPUOFF) &&& GIE = GIE := by decide
  unfold bic16
  rw [Nat.and_assoc, h]

theorem watchdog_timer_GIE (s : State) : (watchdog_timer s).SR &&& GIE = s.SR &&& GIE := by
  unfold watchdog_timer
  dsimp only
  split
  · exact bic16_CPUOFF_and_GIE _
  · rfl

/-- C12: `timer_A1` never changes `speed`, `wheel_turn` or `wdt_counter`; `watchdog_timer`
never changes `wheel_turn`, `speed`, `column` or any interrupt-enable bit (the registers
`P1IE`, `IE1`, `TA1CCTL0` and the `GIE` bit of the status register), in particular it leaves
the `HALL` bit of `P1IE` as it was; lines 64-67 of the main loop, and the whole body of the
loop whenever it has a result, never change `column` or `wdt_counter`; and `HALL_interrupt`
and the wait of line 63 change none of `speed`, `column`, `wdt_counter`, the wait not
`wheel_turn` either.  So `speed` is written only by the body of the main loop, `column` only
by `timer_A1`, `wdt_counter` only by `watchdog_timer`, and `wheel_turn` only by
`HALL_interrupt` and the body of the main loop. -/
theorem C12_single_writer (s : State) :
    ((timer_A1 s).speed = s.speed ∧ (timer_A1 s).wheel_turn = s.wheel_turn ∧
      (timer_A1 s).wdt_counter = s.wdt_counter) ∧
    ((watchdog_timer s).wheel_turn = s.wheel_turn ∧ (watchdog_timer s).speed = s.speed ∧
      (watchdog_timer s).column = s.column ∧ (watchdog_timer s).P1IE = s.P1IE ∧
      (watchdog_timer s).IE1 = s.IE1 ∧ (watchdog_timer s).TA1CCTL0 = s.TA1CCTL0 ∧
      (watchdog_timer s).SR &&& GIE = s.SR &&& GIE ∧
      hall_enabled (watchdog_timer s) = hall_enabled s) ∧
    ((main_compute s).column = s.column ∧ (main_compute s).wdt_counter = s.wdt_counter ∧
      ∀ t, main_body s = some t → t.column = s.column ∧ t.wdt_counter = s.wdt_counter) ∧
    ((HALL_interrupt s).speed = s.speed ∧ (HALL_interrupt s).column = s.column ∧
      (HALL_interrupt s).wdt_counter = s.wdt_counter) ∧
    ((main_wait s).speed = s.speed ∧ (main_wait s).column = s.column ∧
      (main_wait s).wdt_counter = s.wdt_counter ∧ (main_wait s).wheel_turn = s.wheel_turn) := by
  obtain ⟨t1, t2, t3, _⟩ := timer_A1_frame s
  obtain ⟨w1, w2, w3, _, w5, w6, w7⟩ := watchdog_timer_frame s
  refine ⟨⟨t1, t2, t3⟩, ⟨w1, w3, w2, w5, w6, w7, watchdog_timer_GIE s, ?_⟩,
    ⟨rfl, rfl, main_body_frame s⟩, ⟨rfl, rfl, rfl⟩, ⟨rfl, rfl, rfl, rfl⟩⟩
  unfold hall_enabled
  rw [w5]

set_option maxRecDepth 100000 in
/-- Witness for C12: the body of the main loop run after 24 sensor edges from start-up has the
result `armed`, whose `column` and `wdt_counter` are those of the state it was run in. -/
theorem C12_single_writer_witness :
    main_body (HALL_interrupt^[24] startup) = some armed ∧
    armed.column = (HALL_interrupt^[24] startup).column ∧
    armed.wdt_counter = (HALL_interrupt^[24] startup).wdt_counter :=
  ⟨by decide,
    (C12_single_writer (HALL_interrupt^[24] startup)).2.2.1.2.2 armed (by decide)⟩

/-! ## The interval arithmetic -/

/-- C13: with 16-bit `int` and the 16-bit register `TA1CCR0`, for every `speed_set` in
`[1, 32767]` `set_timer` completes and the value it stores in `TA1CCR0` through
`(int)(DELAY/speed_set)` is the exact quotient `65000 / speed_set`, which lies in `[1, 65000]`
and is below `2^16`; for `speed_set = 1` the intermediate cast to `int` gives `-536` and the
value stored is still 65000. -/
theorem C13_interval_exact (s : State) (speed_set : Int) (h1 : 1 ≤ speed_set)
    (h2 : speed_set ≤ 32767) :
    (∃ t, set_timer speed_set s = some t ∧ (t.TA1CCR0 : Int) = 65000 / speed_set ∧
      1 ≤ t.TA1CCR0 ∧ t.TA1CCR0 ≤ 65000 ∧ t.TA1CCR0 < 2 ^ 16) ∧
    wrap16 (Int.tdiv DELAY 1) = -536 ∧
    (∃ t, set_timer 1 s = some t ∧ t.TA1CCR0 = 65000) := by
  lift speed_set to Nat using (by omega)
  have h1n : 1 ≤ speed_set := by exact_mod_cast h1
  have h2n : speed_set ≤ 32767 := by exact_mod_cast h2
  obtain ⟨t, ht, e⟩ := set_timer_interval s speed_set h1n
  obtain ⟨u, hu, eu⟩ := set_timer_interval s 1 (le_refl 1)
  have hq1 : 1 ≤ 65000 / speed_set := by
    rw [Nat.le_div_iff_mul_le (by omega)]
    omega
  have hq2 : 65000 / speed_set ≤ 65000 := Nat.div_le_self _ _
  refine ⟨⟨t, ht, ?_, ?_, ?_, ?_⟩, by decide, ⟨u, hu, ?_⟩⟩
  · rw [e]; norm_cast
  · rw [e]; exact hq1
  · rw [e]; exact hq2
  · rw [e]; omega
  · rw [eu]

/-- Witness for C13: speed 3 from the start-up state. -/
theorem C13_interval_exact_witness :
    (∃ t, set_timer 3 startup = some t ∧ (t.TA1CCR0 : Int) = 65000 / 3 ∧
      1 ≤ t.TA1CCR0 ∧ t.TA1CCR0 ≤ 65000 ∧ t.TA1CCR0 < 2 ^ 16) ∧
    wrap16 (Int.tdiv DELAY 1) = -536 ∧
    (∃ t, set_timer 1 startup = some t ∧ t.TA1CCR0 = 65000) :=
  C13_interval_exact startup 3 (by decide) (by decide)

/-! ## The speed snapshot during a render pass -/

theorem Reachable_phase_ok (s : State) (h : Reachable s) : phase_ok s := by
  induction h with
  | start => exact ⟨by decide, by decide⟩
  | hall _ ih => exact phase_ok_of_eq rfl rfl rfl ih
  | wdt _ ih => exact phase_ok_watchdog_timer _ ih
  | timer _ ih => exact phase_ok_timer_A1 _ ih
  | wait _ ih => exact phase_ok_of_eq rfl rfl rfl ih
  | body _ hb _ => exact phase_ok_main_body _ _ hb

theorem timer_A1_iterate_frame (s : State) (n : Nat) :
    (timer_A1^[n] s).speed = s.speed ∧ (timer_A1^[n] s).wheel_turn = s.wheel_turn := by
  induction n with
  | zero => exact ⟨rfl, rfl⟩
  | succ n ih =>
    rw [Function.iterate_succ_apply']
    obtain ⟨f1, f2, _, _⟩ := timer_A1_frame (timer_A1^[n] s)
    exact ⟨f1.trans ih.1, f2.trans ih.2⟩

/-- The part of the snapshot property that does not depend on the main loop: in every
reachable state in which the render timer interrupt is enabled, the sensor and the watchdog
interrupts are disabled; firings of `timer_A1` never change `speed` or `wheel_turn`; and a
render pass started with `column = 0` draws all its columns with the digit function of one and
the same value of `speed`. -/
theorem render_phase_snapshot (s : State) (h : Reachable s) (hr : render_enabled s = true) :
    hall_enabled s = false ∧ wdt_enabled s = false ∧
    (∀ n, (timer_A1^[n] s).speed = s.speed ∧ (timer_A1^[n] s).wheel_turn = s.wheel_turn) ∧
    (s.column = 0 → ∀ j, j ≤ 7 → (timer_A1^[j] s).leds = s.leds ++ pass_calls s.speed j) := by
  obtain ⟨p1, p2⟩ := Reachable_phase_ok s h
  rw [hr] at p1
  have hh : hall_enabled s = false := by simpa using p1
  refine ⟨hh, by rw [p2, hh], timer_A1_iterate_frame s, ?_⟩
  intro hc j hj
  rw [timer_A1_iterate_any s hc j hj]

theorem cpu_off_main_wait (s : State) : cpu_off (main_wait s) = false := by
  have h : (0xFFFF ^^^ (CPUOFF + GIE)) &&& CPUOFF = 0 := by decide
  have h0 : (main_wait s).SR &&& CPUOFF = 0 := by
    show s.SR &&& (0xFFFF ^^^ (CPUOFF + GIE)) &&& CPUOFF = 0
    rw [Nat.and_assoc, h, Nat.and_zero]
  simp [cpu_off, h0]

end Speedometer
